import Mathlib

/-!
Shallow embedding of the YK dynasty-basketball trade-grading pipeline
(scripts under `scripts/`), together with theorems that settle the frozen
claims about it.

Conventions used throughout:
* Python floats are modelled as exact rationals (`ℚ`); `round(x, n)` is
  modelled by `pyRoundTo n`, Python's round-half-to-even on the exact value.
* Python dicts keyed by strings are modelled as association lists that keep
  insertion order, with dict assignment modelled by `setEntry`.
* Python `None` is modelled by `Option.none`; dict fields that may be absent
  are `Option` fields.
-/

set_option maxRecDepth 8000

/-- Python round-half-to-even of `x` to `n` decimal places
(`round(x, n)` on the exact rational value). -/
def pyRoundTo (n : ℕ) (x : ℚ) : ℚ :=
  let m : ℚ := (10 : ℚ) ^ n
  let y := x * m
  let f : ℤ := ⌊y⌋
  let r := y - f
  let k : ℤ :=
    if r < 1/2 then f
    else if 1/2 < r then f + 1
    else if f % 2 = 0 then f else f + 1
  (k : ℚ) / m

/-! ## Grade scales (compute_trade_windows.py, grade_trades.py,
combine_trade_grades.py, track_pick_outcomes.py) -/

/-- `GRADE_SCALE` of compute_trade_windows.py applied by its
`delta_to_grade`: thresholds 8, 4, 1, -1, -4, then `-inf ↦ "F"`. -/
def delta_to_grade_cw (delta : ℚ) : String :=
  if delta ≥ 8 then "A+"
  else if delta ≥ 4 then "A"
  else if delta ≥ 1 then "B"
  else if delta ≥ -1 then "C"
  else if delta ≥ -4 then "D"
  else "F"

/-- `GRADE_SCALE` of grade_trades.py applied by its `delta_to_grade`:
thresholds 5, 3, 1, -1, -3, then `-inf ↦ "F"`. -/
def delta_to_grade_gt (delta : ℚ) : String :=
  if delta ≥ 5 then "A+"
  else if delta ≥ 3 then "A"
  else if delta ≥ 1 then "B"
  else if delta ≥ -1 then "C"
  else if delta ≥ -3 then "D"
  else "F"

/-- `gpa_to_grade` of combine_trade_grades.py: fixed GPA cut points. -/
def gpa_to_grade (gpa : ℚ) : String :=
  if gpa ≥ 415/100 then "A+"
  else if gpa ≥ 35/10 then "A"
  else if gpa ≥ 25/10 then "B"
  else if gpa ≥ 15/10 then "C"
  else if gpa ≥ 5/10 then "D"
  else "F"

/-- `GRADE_GPA.get(g, 0.0)`: the numeric value of a letter grade, defaulting
to 0.0 for unknown keys (track_pick_outcomes.py). -/
def gradeGpa (g : String) : ℚ :=
  if g = "A+" then 43/10
  else if g = "A" then 4
  else if g = "B" then 3
  else if g = "C" then 2
  else if g = "D" then 1
  else 0

/-- `GRADE_GPA.get(g)` of combine_trade_grades.py: `"INC"` is mapped to
`None` there, and a missing key also yields `None`, so both give `none`. -/
def gradeGpaLookup (g : String) : Option ℚ :=
  if g = "A+" then some (43/10)
  else if g = "A" then some 4
  else if g = "B" then some 3
  else if g = "C" then some 2
  else if g = "D" then some 1
  else if g = "F" then some 0
  else none

/-- `PICK_GRADE_SCALE` of track_pick_outcomes.py: overall draft slot →
letter grade (round 1 = slots 1-10, round 2 = slots 11-20). -/
def PICK_GRADE_SCALE : List (ℤ × String) :=
  [(1, "A+"), (2, "A+"), (3, "A"), (4, "A"), (5, "B"), (6, "B"),
   (7, "C"), (8, "C"), (9, "D"), (10, "F"),
   (11, "C"), (12, "C"), (13, "D"), (14, "D"), (15, "F"), (16, "F"),
   (17, "F"), (18, "F"), (19, "F"), (20, "F")]

/-- `PICK_GRADE_SCALE.get(slot, "F")`. -/
def pickGradeGet (slot : ℤ) : String :=
  (PICK_GRADE_SCALE.lookup slot).getD "F"

/-! ## Per-player delta computation (C1)

compute_trade_windows.py `process_side` computes, for one received player,
`pre_fpts = get_fpts(player, season)` and
`post_fpts = get_fpts(player, post_season) if post_season else None`,
then branches on which values are present. grade_trades.py `grade_side`
does the analogous computation with its own fallback rules. -/

/-- One player entry as filled in by `process_side`
(compute_trade_windows.py, lines 238-261): the delta (absent when the
player is not gradeable) and the data-availability status. -/
structure PlayerEntryCW where
  delta : Option ℚ
  status : String
deriving DecidableEq

/-- The delta/status branch of `process_side` (compute_trade_windows.py).
`postSeason` is whether `next_season(season)` returned a season;
`postLookup` is the `get_fpts` result for that next season (the code only
performs the lookup when `postSeason` holds, hence the `if`). -/
def processPlayerCW (pre : Option ℚ) (postSeason : Bool) (postLookup : Option ℚ) :
    PlayerEntryCW :=
  let post := if postSeason then postLookup else none
  match pre, post with
  | some p, some q => ⟨some (pyRoundTo 1 (q - p)), "graded"⟩
  | some p, none =>
      if postSeason then ⟨some (pyRoundTo 1 (-p * (5/10))), "no_post_data"⟩
      else ⟨none, "current_season"⟩
  | none, some q => ⟨some (pyRoundTo 1 (q * (5/10))), "no_pre_data"⟩
  | none, none => ⟨none, "no_data"⟩

/-- The side total of `process_side`: deltas of gradeable players are summed
(absent deltas contribute nothing) and the total is rounded. -/
def sideDeltaCW (players : List (Option ℚ × Bool × Option ℚ)) : ℚ :=
  pyRoundTo 1 (players.foldl
    (fun acc x => acc + ((processPlayerCW x.1 x.2.1 x.2.2).delta).getD 0) 0)

/-- One player entry as filled in by `grade_side` (grade_trades.py,
lines 449-465): there the delta is always set (0.0 in the no-data cases)
and always added to the side total. -/
structure PlayerEntryGT where
  delta : ℚ
  status : String
deriving DecidableEq

/-- The delta/status branch of `grade_side` (grade_trades.py). -/
def gradePlayerGT (pre post : Option ℚ) : PlayerEntryGT :=
  match pre, post with
  | some p, some q => ⟨pyRoundTo 1 (q - p), "graded"⟩
  | none, some _ => ⟨0, "no_baseline"⟩
  | some p, none => ⟨pyRoundTo 1 (-p * (5/10)), "no_post_data"⟩
  | none, none => ⟨0, "no_data"⟩

/-! ## Grade combination per side (C2) and winner decision (C3)
(combine_trade_grades.py, main loop) -/

/-- The combined-grade fields written onto one trade side by
combine_trade_grades.py (lines 220-252). -/
structure CombinedSide where
  combined_grade : String
  combined_gpa : Option ℚ
  grade_basis : String
deriving DecidableEq

/-- The per-side combination step of combine_trade_grades.py `main`:
`playerGrade` is `side.get("grade", "INC")`, `pickGpas` the pick GPAs
looked up from the ledger, `hasPlayers`/`hasPicks` whether the side's
`received_players`/`received_picks` lists are nonempty. -/
def combineSide (hasPlayers hasPicks : Bool) (playerGrade : String)
    (pickGpas : List ℚ) : CombinedSide :=
  let playerGpa := gradeGpaLookup playerGrade
  let avgPickGpa : Option ℚ :=
    if pickGpas.length ≠ 0 then some (pickGpas.sum / pickGpas.length) else none
  if hasPlayers && hasPicks && playerGpa.isSome && avgPickGpa.isSome then
    let g := playerGpa.getD 0 * (6/10) + avgPickGpa.getD 0 * (4/10)
    ⟨gpa_to_grade g, some (pyRoundTo 2 g), "mixed"⟩
  else if hasPicks && avgPickGpa.isSome && (!hasPlayers || playerGpa.isNone) then
    let g := avgPickGpa.getD 0
    ⟨gpa_to_grade g, some (pyRoundTo 2 g), "picks_only"⟩
  else if hasPlayers && playerGpa.isSome then
    let g := playerGpa.getD 0
    -- `round(combined_gpa, 2) if combined_gpa else None`: 0.0 is falsy.
    ⟨playerGrade, if g ≠ 0 then some (pyRoundTo 2 g) else none, "players_only"⟩
  else
    ⟨"INC", none, "incomplete"⟩

/-- The trade-level outcome decided by combine_trade_grades.py `main`
(lines 266-291): a winner, an even trade, an incomplete trade (both sides
INC), or the "Partial data" summary (exactly one side lacks a GPA). -/
inductive TradeCall where
  | winner (w : String)
  | even
  | incomplete
  | partData
deriving DecidableEq

/-- The winner/summary decision of combine_trade_grades.py `main`:
inputs are each side's stored `combined_gpa` and `combined_grade`. -/
def decideTrade (aGpa bGpa : Option ℚ) (aGrade bGrade ownerA ownerB : String) :
    TradeCall :=
  match aGpa, bGpa with
  | some a, some b =>
      if a > b + 5/10 then .winner ownerA
      else if b > a + 5/10 then .winner ownerB
      else .even
  | _, _ =>
      if aGrade = "INC" ∧ bGrade = "INC" then .incomplete else .partData

/-! ## Pick ledger (track_pick_outcomes.py)

Step 2 builds the ledger from the pick trade events parsed out of
trades.json; step 3 merges future picks from picks.json; step 4 maps picks
to actual draft slots; step 5 projects future picks from standings. -/

/-- One chain-of-custody transfer event appended to a ledger entry
(`ledger[pick_id]["trades"].append(...)`); `fromOwner`/`toOwner` model the
`"from"`/`"to"` keys. -/
structure TransferEvent where
  trade_index : ℤ
  season : String
  fromOwner : String
  toOwner : String
deriving DecidableEq

/-- One pick ledger entry. Fields that the Python dict only acquires in
later steps (slots, grades, projections) are `Option` fields, `none`
meaning the key is absent. -/
structure LedgerEntry where
  original_owner : String
  draft_year : ℤ
  round : ℤ
  is_swap : Bool
  trades : List TransferEvent
  current_owner : String
  status : String := ""
  draft_slot : Option ℤ := none
  overall_slot : Option ℤ := none
  pick_grade : Option String := none
  pick_gpa : Option ℚ := none
  projected_slot : Option ℤ := none
  projected_overall : Option ℤ := none
  projected_grade : Option String := none
  projected_gpa : Option ℚ := none
deriving DecidableEq

/-- One element of `pick_trades` (step 1 output): the parsed pick identity
together with the sending and receiving side of the trade. -/
structure PickEvent where
  trade_index : ℤ
  season : String
  fromOwner : String
  toOwner : String
  origOwner : String
  draftYear : ℤ
  round : ℤ
  isSwap : Bool
deriving DecidableEq

/-- One future-pick record from picks.json after parsing (step 3): the
year key, the holding owner (the resolved dict key, authoritative for
current ownership) and the parsed pick identity. -/
structure FuturePick where
  year : ℤ
  canonicalOwner : String
  origOwner : String
  round : ℤ
  isSwap : Bool
deriving DecidableEq

/-- The `pick_id` string `f"{original_owner}_{draft_year}_R{round}"`. -/
def pickIdOf (origOwner : String) (year round : ℤ) : String :=
  origOwner ++ "_" ++ toString year ++ "_R" ++ toString round

/-- Python dict assignment `d[k] = e` on an insertion-ordered association
list: update in place when the key is present, else append. -/
def setEntry (l : List (String × LedgerEntry)) (k : String) (e : LedgerEntry) :
    List (String × LedgerEntry) :=
  if (l.lookup k).isSome then
    l.map (fun p => if p.1 = k then (k, e) else p)
  else
    l ++ [(k, e)]

/-- Step 2 body for one pick trade event: create the entry if absent
(initial `current_owner` = original owner), accumulate the swap flag,
append the transfer event, and set `current_owner` to the receiving side. -/
def applyPickEvent (ledger : List (String × LedgerEntry)) (pt : PickEvent) :
    List (String × LedgerEntry) :=
  let pid := pickIdOf pt.origOwner pt.draftYear pt.round
  let e0 : LedgerEntry := (ledger.lookup pid).getD
    { original_owner := pt.origOwner, draft_year := pt.draftYear,
      round := pt.round, is_swap := pt.isSwap, trades := [],
      current_owner := pt.origOwner }
  let e1 : LedgerEntry :=
    { e0 with
      is_swap := e0.is_swap || pt.isSwap,
      trades := e0.trades ++
        [⟨pt.trade_index, pt.season, pt.fromOwner, pt.toOwner⟩],
      current_owner := pt.toOwner }
  setEntry ledger pid e1

/-- Step 2: build the ledger from all pick trade events in order. -/
def buildLedger (evts : List PickEvent) : List (String × LedgerEntry) :=
  evts.foldl applyPickEvent []

/-- Step 3 body for one picks.json record: create the entry if absent
(empty chain, `current_owner` = the holding owner from picks.json), then
unconditionally overwrite `current_owner` with that owner — picks.json is
authoritative for current ownership of future picks. No transfer event is
appended. -/
def applyFuturePick (ledger : List (String × LedgerEntry)) (fp : FuturePick) :
    List (String × LedgerEntry) :=
  let pid := pickIdOf fp.origOwner fp.year fp.round
  let e0 : LedgerEntry := (ledger.lookup pid).getD
    { original_owner := fp.origOwner, draft_year := fp.year,
      round := fp.round, is_swap := fp.isSwap, trades := [],
      current_owner := fp.canonicalOwner }
  setEntry ledger pid { e0 with current_owner := fp.canonicalOwner }

/-- Step 3: merge all picks.json records into the ledger. -/
def mergeFuturePicks (ledger : List (String × LedgerEntry))
    (fps : List FuturePick) : List (String × LedgerEntry) :=
  fps.foldl applyFuturePick ledger

/-- The ledger at the end of steps 2-3. -/
def fullLedger (evts : List PickEvent) (fps : List FuturePick) :
    List (String × LedgerEntry) :=
  mergeFuturePicks (buildLedger evts) fps

/-- The chain-of-custody invariant claimed for ledger entries:
`current_owner` equals the `"to"` of the latest transfer event, or the
original owner when the chain is empty. -/
def chainInvariant (e : LedgerEntry) : Prop :=
  e.current_owner = match e.trades.getLast? with
    | some t => t.toOwner
    | none => e.original_owner

instance (e : LedgerEntry) : Decidable (chainInvariant e) := by
  unfold chainInvariant; exact inferInstance

/-! ## Draft slot resolution and projection (steps 4-5) -/

/-- One slot record of a season's draft-slot map (built from
`getDraftResults`): the drafting owner and the slot numbers. -/
structure SlotInfo where
  owner : String
  overall_slot : ℤ
  round : ℤ
  pick_number : ℤ
deriving DecidableEq

/-- `draft_year_to_season`: `2022 ↦ "2022-23"`
(`str(year)` then the last two characters of `str(year + 1)`). -/
def draft_year_to_season (year : ℤ) : String :=
  let s := toString (year + 1)
  toString year ++ "-" ++ (s.drop (s.length - 2))

/-- Step 4 for one ledger entry: look up the draft-slot map for the pick's
season; without one, status becomes `"pending"` (future year) or
`"no_draft_data"`. With one, the first slot whose round and original owner
match completes the pick and grades it from `PICK_GRADE_SCALE`; otherwise
status becomes `"pending"` (future year) or `"unresolved"`. -/
def mapPickToSlot (draftMaps : List (String × List ((ℤ × ℤ) × SlotInfo)))
    (p : LedgerEntry) : LedgerEntry :=
  let season := draft_year_to_season p.draft_year
  match draftMaps.lookup season with
  | none =>
      { p with status := if p.draft_year > 2025 then "pending" else "no_draft_data" }
  | some slotMap =>
      match slotMap.find? (fun e => e.1.1 = p.round && e.2.owner = p.original_owner) with
      | some e =>
          let grade := pickGradeGet e.2.overall_slot
          { p with status := "completed",
                   draft_slot := some e.2.pick_number,
                   overall_slot := some e.2.overall_slot,
                   pick_grade := some grade,
                   pick_gpa := some (gradeGpa grade) }
      | none =>
          { p with status := if p.draft_year > 2025 then "pending" else "unresolved" }

/-- Step 5 for one ledger entry: picks still `"pending"`/`"no_draft_data"`
with a draft year after 2025 are projected from the latest standings.
`team_to_rank.get(orig_owner, 5)` silently defaults a missing owner to
rank 5; draft order is reverse standings, so the slot is `11 - rank`. -/
def projectPick (teamToRank : List (String × ℤ)) (p : LedgerEntry) : LedgerEntry :=
  if p.status ≠ "pending" ∧ p.status ≠ "no_draft_data" then p
  else if p.draft_year ≤ 2025 then p
  else
    let origRank := (teamToRank.lookup p.original_owner).getD 5
    let pickSlot := 11 - origRank
    let overall := (p.round - 1) * 10 + pickSlot
    let grade := pickGradeGet overall
    { p with status := "projected",
             projected_slot := some pickSlot,
             projected_overall := some overall,
             projected_grade := some grade,
             projected_gpa := some (gradeGpa grade) }

/-- Steps 4 then 5 applied to one ledger entry. -/
def resolveAndProject (draftMaps : List (String × List ((ℤ × ℤ) × SlotInfo)))
    (teamToRank : List (String × ℤ)) (p : LedgerEntry) : LedgerEntry :=
  projectPick teamToRank (mapPickToSlot draftMaps p)

/-! ## Name normalization and fuzzy matching (load_trade_csvs.py)

`normalize` does NFD + combining-mark removal (identity on the ASCII names
handled here), lowercases, strips, replaces curly quotes by an ASCII
apostrophe and then removes periods and apostrophes, strips one pass of
the suffix list, and strips again. `fuzzy_match_name` compares normalized
names for equality and otherwise requires
`SequenceMatcher(None, na, nb).ratio() >= 0.80`. -/

/-- The ordered suffix list of `normalize`; each is stripped once, in this
order, whenever the current string ends with it. -/
def normSuffixes : List String := [" jr", " iii", " ii", " iv", " sr"]

/-- `normalize` of load_trade_csvs.py (also identical in
compute_trade_windows.py and grade_trades.py). The NFD/mark-removal line
only changes non-ASCII input and is the identity here. Replacing curly
quotes by `'` and then deleting `.` and `'` deletes all four characters. -/
def pyWhitespace (c : Char) : Bool :=
  c = ' ' || c = '\t' || c = '\n' || c = '\r' || c = '\x0b' || c = '\x0c'

/-- Python `str.strip()` on a character list. -/
def trimChars (l : List Char) : List Char :=
  ((l.dropWhile pyWhitespace).reverse.dropWhile pyWhitespace).reverse

/-- `clean[:-len(suffix)] if clean.endswith(suffix) else clean`. -/
def stripOneSuffix (suf l : List Char) : List Char :=
  if suf.isSuffixOf l then l.take (l.length - suf.length) else l

/-- `normalize` as a character-list computation. -/
def normChars (s : String) : List Char :=
  let t := s.toList.map Char.toLower
  let t := trimChars t
  let t := t.filter (fun c => c ≠ '.' && c ≠ '\'' && c ≠ '’' && c ≠ '‘')
  let t := normSuffixes.foldl (fun cur suf => stripOneSuffix suf.toList cur) t
  trimChars t

def pyNormalize (s : String) : String :=
  String.mk (normChars s)

/-- Ascending positions `j` of character `c` in `b` with `blo ≤ j < bhi`
(difflib's `b2j` restricted to the current range). -/
def jPositions (c : Char) (b : List Char) (blo bhi : ℕ) : List ℕ :=
  (List.range b.length).filter (fun j => blo ≤ j && j < bhi && b.getD j ' ' == c)

/-- One row (fixed `i`) of difflib `find_longest_match`: thread the
`j2len` table from the previous row and update the best block
(`besti, bestj, bestsize`), which only moves on a strictly larger size. -/
def flmRow (b : List Char) (blo bhi i : ℕ) (c : Char)
    (st : List (ℕ × ℕ) × (ℕ × ℕ × ℕ)) : List (ℕ × ℕ) × (ℕ × ℕ × ℕ) :=
  (jPositions c b blo bhi).foldl
    (fun acc j =>
      let k := if j = 0 then 1 else (st.1.lookup (j - 1)).getD 0 + 1
      let best := acc.2
      (acc.1 ++ [(j, k)],
       if k > best.2.2 then (i + 1 - k, j + 1 - k, k) else best))
    ([], st.2)

/-- difflib `SequenceMatcher.find_longest_match` on ranges
`a[alo:ahi]`, `b[blo:bhi]`, with no junk (names are far shorter than the
autojunk limit of 200, and `isbjunk` is empty, so the two junk-edge
extension loops after the main loop never move and are omitted). Returns
`(besti, bestj, bestsize)`. -/
def findLongestMatch (a b : List Char) (alo ahi blo bhi : ℕ) : ℕ × ℕ × ℕ :=
  ((List.range' alo (ahi - alo)).foldl
    (fun st i => flmRow b blo bhi i (a.getD i ' ') st)
    ([], (alo, blo, 0))).2

/-- Total size of all matching blocks (the `sum(size for ...)` inside
difflib `ratio`), by the recursive block decomposition of
`get_matching_blocks`. `fuel` strictly exceeds the total range size, so it
never runs out on real calls. -/
def matchTotalAux (a b : List Char) : ℕ → ℕ → ℕ → ℕ → ℕ → ℕ
  | 0, _, _, _, _ => 0
  | fuel + 1, alo, ahi, blo, bhi =>
      let r := findLongestMatch a b alo ahi blo bhi
      let i := r.1
      let j := r.2.1
      let k := r.2.2
      if k = 0 then 0
      else matchTotalAux a b fuel alo i blo j + k +
           matchTotalAux a b fuel (i + k) ahi (j + k) bhi

/-- Total matched characters between `a` and `b` per difflib. -/
def matchTotal (a b : List Char) : ℕ :=
  matchTotalAux a b (a.length + b.length + 1) 0 a.length 0 b.length

/-- `SequenceMatcher(None, a, b).ratio() >= 0.80`, i.e.
`2*M / (len a + len b) ≥ 4/5` (difflib returns 1.0 when both are empty,
and `10*0 ≥ 0` agrees). -/
def ratioGeThreshold (a b : List Char) : Bool :=
  10 * matchTotal a b ≥ 4 * (a.length + b.length)

/-- `fuzzy_match_name` of load_trade_csvs.py with the default threshold
0.80: equal normalized names, or similarity ratio at least the threshold. -/
def fuzzy_match_name (nameA nameB : String) : Bool :=
  let na := normChars nameA
  let nb := normChars nameB
  na == nb || ratioGeThreshold na nb

/-! ## Trade reconciliation (load_trade_csvs.py `reconcile` and `main`) -/

/-- One bundle (Fantrax CSV) trade group: rows sharing date and unordered
team pair, split into the players and picks each side gave. -/
structure CsvTrade where
  date : Option String
  season : Option String
  owner_a : String
  owner_b : String
  side_a_players : List String
  side_b_players : List String
  side_a_picks : List String
  side_b_picks : List String
deriving DecidableEq, Inhabited

/-- One output record of the rebuilt trades.json. Optional provenance
fields default to their absent value. The constant
`sources = {"players": "fantrax_csv", "picks": "excel"}` metadata of
matched trades is modelled by the `sources` field. -/
structure OutTrade where
  season : Option String
  date : Option String
  give : List String
  get : List String
  fantrax_confirmed : Bool := false
  sources : Option String := none
  source : Option String := none
  needs_review : Bool := false
  picks_unknown : Bool := false
deriving DecidableEq, Inhabited

/-- One backbone (Excel) trade as parsed by `parse_existing_trades`:
season, optional date, the two side owners, the side asset lists split
into players and picks, and the raw original record. -/
structure ExcelTrade where
  season : String
  date : Option String
  owner_a : String
  owner_b : String
  give_players : List String
  give_picks : List String
  get_players : List String
  get_picks : List String
  raw : OutTrade
deriving DecidableEq, Inhabited

/-- Python set equality `{a, b} == {c, d}`. -/
def ownerPairEq (a b c d : String) : Bool :=
  (a == c || a == d) && (b == c || b == d) && (c == a || c == b) && (d == a || d == b)

/-- `excel_all_players = et["give_players"] + et["get_players"]`. -/
def excelAllPlayers (et : ExcelTrade) : List String :=
  et.give_players ++ et.get_players

/-- `csv_all_players = ct["side_a_players"] + ct["side_b_players"]`. -/
def csvAllPlayers (ct : CsvTrade) : List String :=
  ct.side_a_players ++ ct.side_b_players

/-- The overlap score of `reconcile`: how many of the backbone trade's
players fuzzy-match some player of the bundle group (one count per
backbone player, via the inner `break`). -/
def overlapCount (et : ExcelTrade) (ct : CsvTrade) : ℕ :=
  (excelAllPlayers et).countP
    (fun ep => (csvAllPlayers ct).any (fun cp => fuzzy_match_name ep cp))

/-- The three `continue` filters of the candidate loop in `reconcile`:
same season, same unordered owner pair, and at least one bundle player. -/
def isCandidate (et : ExcelTrade) (ct : CsvTrade) : Bool :=
  ct.season == some et.season &&
  ownerPairEq ct.owner_a ct.owner_b et.owner_a et.owner_b &&
  !(csvAllPlayers ct).isEmpty

/-- The candidate scan of `reconcile`: walk the bundle groups in order,
keeping the first candidate that strictly beats the best overlap so far
(`best_csv`, `best_overlap`). -/
def bestScan (et : ExcelTrade) :
    List (ℕ × CsvTrade) → Option ℕ × ℕ → Option ℕ × ℕ
  | [], best => best
  | (ci, ct) :: rest, best =>
      if isCandidate et ct then
        let ov := overlapCount et ct
        bestScan et rest (if ov > best.2 then (some ci, ov) else best)
      else bestScan et rest best

/-- `best_csv, best_overlap` for one backbone trade. -/
def bestCsvFor (csvs : List CsvTrade) (et : ExcelTrade) : Option ℕ × ℕ :=
  bestScan et csvs.enum (none, 0)

/-- One element of the `matched` list of `reconcile`; `overlap` is the
numerator of its `"overlap/total players"` match-info string. -/
structure MatchedPair where
  csv_idx : ℕ
  excel_idx : ℕ
  overlap : ℕ
deriving DecidableEq

/-- The `matched` list of `reconcile`: backbone trades with no players are
skipped; a best candidate is accepted only with at least one overlap. -/
def reconcileMatched (csvs : List CsvTrade) (excels : List ExcelTrade) :
    List MatchedPair :=
  excels.enum.foldl
    (fun acc p =>
      if (excelAllPlayers p.2).isEmpty then acc
      else
        let b := bestCsvFor csvs p.2
        match b.1 with
        | some ci => if b.2 > 0 then acc ++ [⟨ci, p.1, b.2⟩] else acc
        | none => acc)
    []

/-- `csv_used_for[ci]`: the backbone indices matched to bundle group `ci`,
in match order. -/
def csvUsedFor (matched : List MatchedPair) (ci : ℕ) : List ℕ :=
  (matched.filter (fun m => m.csv_idx == ci)).map (·.excel_idx)

/-- `sorted(csv_unmatched)`: bundle groups matched to no backbone trade. -/
def csvUnmatched (csvs : List CsvTrade) (matched : List MatchedPair) : List ℕ :=
  (List.range csvs.length).filter (fun ci => csvUsedFor matched ci == [])

/-- `sorted(excel_unmatched_idx)`: backbone indices never matched
(including the skipped pick-only backbone trades). -/
def excelUnmatched (excels : List ExcelTrade) (matched : List MatchedPair) :
    List ℕ :=
  (List.range excels.length).filter
    (fun ei => !(matched.any (fun m => m.excel_idx == ei)))

/-! ## Rebuilding trades.json (load_trade_csvs.py `main`, section 3) -/

/-- `get_abbrev_for_owner`: primary abbreviation, default `"UNKN"`. -/
def get_abbrev_for_owner (owner : String) : String :=
  if owner = "Baden" then "BADEN"
  else if owner = "Berke" then "BERK"
  else if owner = "Delaney" then "DELA"
  else if owner = "Gold" then "GOLD"
  else if owner = "Green" then "GREEN"
  else if owner = "HaleTrager" then "TRAG"
  else if owner = "Jowkar" then "JOWK"
  else if owner = "Moss" then "MOSS"
  else if owner = "Peterson" then "PETE"
  else if owner = "Zujewski" then "ZJEW"
  else "UNKN"

/-- The greedy one-to-one matching of backbone players against bundle
players (`csv_give_used` / `csv_get_used`): each backbone player claims
the first not-yet-used bundle index that fuzzy-matches it. -/
def claimIndices (eps cps : List String) : List ℕ :=
  eps.foldl
    (fun used ep =>
      match cps.enum.find? (fun q => !(used.contains q.1) && fuzzy_match_name ep q.2) with
      | some q => used ++ [q.1]
      | none => used)
    []

/-- The `other_claimed` sets: every other claiming backbone trade's player
marks the first bundle index that fuzzy-matches it (no used-set here). -/
def firstMatchSet (ops cps : List String) : List ℕ :=
  ops.foldl
    (fun s op =>
      match cps.enum.find? (fun q => fuzzy_match_name op q.2) with
      | some q => if s.contains q.1 then s else s ++ [q.1]
      | none => s)
    []

/-- Rebuild one matched backbone trade (lines 540-650): align bundle sides
to the backbone owners, claim matched players, withhold players claimed by
other backbone trades of the same bundle group, include unclaimed extras
only for a sole claimant, and emit bundle player names under the backbone
owners' abbreviations plus the backbone pick strings. -/
def rebuildMatchedTrade (csvs : List CsvTrade) (excels : List ExcelTrade)
    (matched : List MatchedPair) (m : MatchedPair) : OutTrade :=
  let ct := (csvs[m.csv_idx]?).getD default
  let et := (excels[m.excel_idx]?).getD default
  let csvGive := if ct.owner_a == et.owner_a then ct.side_a_players else ct.side_b_players
  let csvGet := if ct.owner_a == et.owner_a then ct.side_b_players else ct.side_a_players
  let csvGiveUsed := claimIndices et.give_players csvGive
  let csvGetUsed := claimIndices et.get_players csvGet
  let others := (csvUsedFor matched m.csv_idx).filter (fun oei => oei ≠ m.excel_idx)
  let otherClaimedGive := others.foldl
    (fun s oei =>
      let oet := (excels[oei]?).getD default
      let alignGive := if ct.owner_a == oet.owner_a then oet.give_players else oet.get_players
      (firstMatchSet alignGive csvGive).foldl
        (fun s j => if s.contains j then s else s ++ [j]) s)
    []
  let otherClaimedGet := others.foldl
    (fun s oei =>
      let oet := (excels[oei]?).getD default
      let alignGet := if ct.owner_a == oet.owner_a then oet.get_players else oet.give_players
      (firstMatchSet alignGet csvGet).foldl
        (fun s j => if s.contains j then s else s ++ [j]) s)
    []
  let finalGive0 := csvGive.enum.filterMap (fun q =>
    if csvGiveUsed.contains q.1 then some q.2
    else if !(otherClaimedGive.contains q.1) && others.isEmpty then some q.2
    else none)
  let finalGet0 := csvGet.enum.filterMap (fun q =>
    if csvGetUsed.contains q.1 then some q.2
    else if !(otherClaimedGet.contains q.1) && others.isEmpty then some q.2
    else none)
  let solo := (csvUsedFor matched m.csv_idx).length == 1
  let finalGive := if solo then csvGive else finalGive0
  let finalGet := if solo then csvGet else finalGet0
  let abbrevA := get_abbrev_for_owner et.owner_a
  let abbrevB := get_abbrev_for_owner et.owner_b
  { season := some et.season,
    date := ct.date,
    give := finalGive.map (fun p => abbrevA ++ " " ++ p) ++ et.give_picks,
    get := finalGet.map (fun p => abbrevB ++ " " ++ p) ++ et.get_picks,
    fantrax_confirmed := true,
    sources := some "players=fantrax_csv picks=excel" }

/-- The matched-trade loop with its `processed_excel` guard: each backbone
index is rebuilt at most once. -/
def matchedOutputs (csvs : List CsvTrade) (excels : List ExcelTrade)
    (matched : List MatchedPair) : List OutTrade :=
  (matched.foldl
    (fun (st : List ℕ × List OutTrade) m =>
      if st.1.contains m.excel_idx then st
      else (st.1 ++ [m.excel_idx],
            st.2 ++ [rebuildMatchedTrade csvs excels matched m]))
    ([], [])).2

/-- An unmatched backbone trade is kept as its raw record, tagged
`excel_only_picks` when pick-only, else `excel_only` plus `needs_review`. -/
def excelOnlyOutput (et : ExcelTrade) : OutTrade :=
  if et.give_players.isEmpty && et.get_players.isEmpty then
    { et.raw with source := some "excel_only_picks" }
  else
    { et.raw with source := some "excel_only", needs_review := true }

/-- An unmatched bundle group becomes a new trade unless it is empty; its
players are emitted under the bundle owners' abbreviations, its picks are
not trusted (`picks_unknown`). -/
def csvOnlyOutput (ct : CsvTrade) : Option OutTrade :=
  let totalPlayers := ct.side_a_players.length + ct.side_b_players.length
  let totalPicks := ct.side_a_picks.length + ct.side_b_picks.length
  if totalPlayers == 0 && totalPicks == 0 then none
  else
    let abbrevA := get_abbrev_for_owner ct.owner_a
    let abbrevB := get_abbrev_for_owner ct.owner_b
    some
      { season := ct.season,
        date := ct.date,
        give := ct.side_a_players.map (fun p => abbrevA ++ " " ++ p),
        get := ct.side_b_players.map (fun p => abbrevB ++ " " ++ p),
        source := some "fantrax_csv_only",
        picks_unknown := true,
        fantrax_confirmed := true }

/-- `SEASON_ORDER` of load_trade_csvs.py. -/
def SEASON_ORDER : List String :=
  ["2020-21", "2021-22", "2022-23", "2023-24", "2024-25", "2025-26"]

/-- `sort_key`: the season's index in `SEASON_ORDER` (99 when absent or
unknown) and the date, with a missing or empty date sorting last
(`t.get("date") or "9999-99-99"`). -/
def sortKey (t : OutTrade) : ℕ × String :=
  (match t.season with
   | some v => (SEASON_ORDER.findIdx? (· == v)).getD 99
   | none => 99,
   match t.date with
   | some d => if d = "" then "9999-99-99" else d
   | none => "9999-99-99")

/-- Python string `<`: lexicographic comparison by code point. -/
def charListLtB : List Char → List Char → Bool
  | _, [] => false
  | [], _ :: _ => true
  | a :: as, b :: bs => a.toNat < b.toNat || (a == b && charListLtB as bs)

/-- Python string `<=`. -/
def strLeB (s1 s2 : String) : Bool :=
  s1 == s2 || charListLtB s1.toList s2.toList

/-- The total preorder on sort keys (lexicographic on the pair, Python
tuple comparison). -/
def keyLeB (k1 k2 : ℕ × String) : Bool :=
  k1.1 < k2.1 || (k1.1 == k2.1 && strLeB k1.2 k2.2)

/-- Stable insertion of a trade after all trades with a key not greater
than its own. Python's `list.sort` is stable, and all stable sorts under
the same total preorder agree, so this insertion sort models it exactly. -/
def insSortedTrade : List OutTrade → OutTrade → List OutTrade
  | [], t => [t]
  | x :: xs, t =>
      if keyLeB (sortKey x) (sortKey t) then x :: insSortedTrade xs t
      else t :: x :: xs

/-- `final_trades.sort(key=sort_key)`. -/
def sortTrades (l : List OutTrade) : List OutTrade :=
  l.foldl insSortedTrade []

/-- Section 3 of `main`: keep backbone trades from seasons with no bundle
coverage as-is, rebuild matched trades, keep unmatched backbone trades
(flagged), inject non-empty unmatched bundle groups as new trades, and
sort by season then date. No deduplication step exists anywhere in it. -/
def buildFinalTrades (csvs : List CsvTrade) (excels : List ExcelTrade) :
    List OutTrade :=
  let csvSeasons := csvs.filterMap (·.season)
  let inScope := excels.filter (fun t => csvSeasons.contains t.season)
  let outScope := excels.filter (fun t => !(csvSeasons.contains t.season))
  let matched := reconcileMatched csvs inScope
  let part1 := outScope.map (·.raw)
  let part2 := matchedOutputs csvs inScope matched
  let part3 := (excelUnmatched inScope matched).map
    (fun ei => excelOnlyOutput ((inScope[ei]?).getD default))
  let part4 := (csvUnmatched csvs matched).filterMap
    (fun ci => csvOnlyOutput ((csvs[ci]?).getD default))
  sortTrades (part1 ++ part2 ++ part3 ++ part4)

/-- The duplicate key of the claimed deduplication invariant: season,
unordered owner-pair (read off the asset prefixes is not modelled — the
owner pair is not part of the output record, so the give/get lists stand
in for the owner-tagged multisets), give-multiset and get-multiset. Output
records that are fully equal in particular have equal keys. -/
def tradeTuple (t : OutTrade) : Option String × Multiset String × Multiset String :=
  (t.season, (t.give : Multiset String), (t.get : Multiset String))

/-! ### Claim-text scoring for C7 (spec-modelled)

The claim describes the candidate score as the count of the backbone
trade's ASSETS (players and picks) that fuzzy-match an asset in the
group, relative to the backbone trade's asset count, over all groups
sharing season and owner pair. These definitions follow the claim's words,
to be compared with `bestCsvFor` above, which is translated from the
source. -/

/-- Modelled from the claim: all assets of a backbone trade. -/
def specAssetsExcel (et : ExcelTrade) : List String :=
  et.give_players ++ et.get_players ++ et.give_picks ++ et.get_picks

/-- Modelled from the claim: all assets of a bundle group. -/
def specAssetsCsv (ct : CsvTrade) : List String :=
  ct.side_a_players ++ ct.side_b_players ++ ct.side_a_picks ++ ct.side_b_picks

/-- Modelled from the claim: a candidate is any group sharing season and
unordered owner pair. -/
def specCandidateC7 (et : ExcelTrade) (ct : CsvTrade) : Bool :=
  ct.season == some et.season &&
  ownerPairEq ct.owner_a ct.owner_b et.owner_a et.owner_b

/-- Modelled from the claim: fuzzy-matched backbone assets over backbone
asset count. -/
def specScoreC7 (et : ExcelTrade) (ct : CsvTrade) : ℚ :=
  ((specAssetsExcel et).countP
    (fun ep => (specAssetsCsv ct).any (fun cp => fuzzy_match_name ep cp)) : ℚ) /
  (specAssetsExcel et).length

/-! ## Concrete inputs used to evaluate the embedded code -/

/-- A future pick ledger entry before steps 4-5: Berke's own 2026 first-round
pick, never traded. -/
def p2026 : LedgerEntry :=
  { original_owner := "Berke", draft_year := 2026, round := 1,
    is_swap := false, trades := [], current_owner := "Berke" }

/-- A picks.json record: Berke currently holds HaleTrager's 2026 round-1
pick, with no trade recorded for it in trades.json. -/
def fpHale : FuturePick :=
  { year := 2026, canonicalOwner := "Berke", origOwner := "HaleTrager",
    round := 1, isSwap := false }

/-- A raw backbone trade record (as stored in trades.json). -/
def rawDup : OutTrade :=
  { season := some "2021-22", date := none,
    give := ["GOLD Aaa Bbb"], get := ["BERK Ccc Ddd"] }

/-- A parsed backbone trade carrying `rawDup`. Listing it twice models two
backbone trades with identical (season, owner-pair, give, get). -/
def excelDup : ExcelTrade :=
  { season := "2021-22", date := none, owner_a := "Gold", owner_b := "Berke",
    give_players := ["Aaa Bbb"], give_picks := [],
    get_players := ["Ccc Ddd"], get_picks := [], raw := rawDup }

/-- A backbone trade with one player and two picks given by Gold. -/
def etC7 : ExcelTrade :=
  { season := "2022-23", date := none, owner_a := "Gold", owner_b := "Berke",
    give_players := ["aaaa"],
    give_picks := ["gold 2024 1st round", "gold 2025 1st round"],
    get_players := [], get_picks := [], raw := default }

/-- A bundle group between the same owners in the same season whose picks
match both backbone picks but whose single player does not match. -/
def g1C7 : CsvTrade :=
  { date := some "2022-10-17", season := some "2022-23",
    owner_a := "Gold", owner_b := "Berke",
    side_a_players := ["zzzz"], side_b_players := [],
    side_a_picks := ["gold 2024 1st round", "gold 2025 1st round"],
    side_b_picks := [] }

/-- A bundle group between the same owners in the same season whose single
player matches the backbone player and which has no picks. -/
def g2C7 : CsvTrade :=
  { date := some "2022-10-18", season := some "2022-23",
    owner_a := "Gold", owner_b := "Berke",
    side_a_players := ["aaaa"], side_b_players := [],
    side_a_picks := [], side_b_picks := [] }

/-- Rank of a letter grade, aligned case-by-case with `gradeGpa` (used only
to transfer decidable grade comparisons to the `gradeGpa` order). -/
def gradeRankN (g : String) : ℕ :=
  if g = "A+" then 5
  else if g = "A" then 4
  else if g = "B" then 3
  else if g = "C" then 2
  else if g = "D" then 1
  else 0

/-- A pending future pick used to evaluate the projection step: Berke's
own 2026 round-1 pick after step 4 found no draft data. -/
def pendingBerke2026 : LedgerEntry :=
  { original_owner := "Berke", draft_year := 2026, round := 1,
    is_swap := false, trades := [], current_owner := "Berke",
    status := "pending" }

/-! # Theorems -/

/-- Grade-rank comparisons transfer to the `GRADE_GPA` order. -/
theorem gradeGpa_mono_of_rank (g1 g2 : String)
    (h : gradeRankN g1 ≤ gradeRankN g2) : gradeGpa g1 ≤ gradeGpa g2 := by
  unfold gradeRankN at h
  unfold gradeGpa
  split_ifs at h ⊢ <;> first | omega | norm_num

/-- Strict grade-rank comparisons transfer to the `GRADE_GPA` order. -/
theorem gradeGpa_strict_of_rank (g1 g2 : String)
    (h : gradeRankN g1 < gradeRankN g2) : gradeGpa g1 < gradeGpa g2 := by
  unfold gradeRankN at h
  unfold gradeGpa
  split_ifs at h ⊢ <;> first | omega | norm_num

/-- C1: counterexample. For a received player with no trade-season value
and a next-season value of 10 FPts/g, the trade-window grader
(`process_side`) assigns delta 0.5 × post as the claim says but status
`"no_pre_data"`, not `"no_baseline"`; the season grader (`grade_side`)
uses the status `"no_baseline"` but assigns delta 0, not 0.5 × post; and
with pre = 0, post = 0.06 the delta is the rounded 0.1, not post − pre.
So no grader matches the claimed row (0.5 × post with status
`"no_baseline"`) of the missing-data table. -/
theorem C1_counterexample :
    (processPlayerCW none true (some 10)).status = "no_pre_data" ∧
    "no_pre_data" ≠ "no_baseline" ∧
    (gradePlayerGT none (some 10)).status = "no_baseline" ∧
    (gradePlayerGT none (some 10)).delta = 0 ∧
    (0 : ℚ) ≠ (5/10) * 10 ∧
    (processPlayerCW (some 0) true (some (6/100))).delta = some (1/10) ∧
    (1/10 : ℚ) ≠ 6/100 - 0 := by
  refine ⟨rfl, by decide, rfl, rfl, by norm_num, ?_, by norm_num⟩
  show some (pyRoundTo 1 (6/100 - 0)) = some (1/10)
  norm_num [pyRoundTo]

/-- C1 (amended): the per-player missing-data table as the code implements
it. Trade-window grader (`process_side`): both present → delta =
round(post − pre, 1); pre present, post absent → delta = round(−0.5 × pre, 1)
with status `"no_post_data"` when a next season exists, else status
`"current_season"` and no delta; pre absent, post present → delta =
round(0.5 × post, 1) with status `"no_pre_data"`; both absent → status
`"no_data"`, no delta, and the player contributes nothing to the side
total. Season grader (`grade_side`): same except the no-baseline case
gets delta 0 with status `"no_baseline"` and the no-data case delta 0
with status `"no_data"`. -/
theorem C1_amended (p q : ℚ) (l : List (Option ℚ × Bool × Option ℚ)) :
    processPlayerCW (some p) true (some q) = ⟨some (pyRoundTo 1 (q - p)), "graded"⟩ ∧
    processPlayerCW (some p) true none = ⟨some (pyRoundTo 1 (-p * (5/10))), "no_post_data"⟩ ∧
    processPlayerCW (some p) false (some q) = ⟨none, "current_season"⟩ ∧
    processPlayerCW none true (some q) = ⟨some (pyRoundTo 1 (q * (5/10))), "no_pre_data"⟩ ∧
    processPlayerCW none true none = ⟨none, "no_data"⟩ ∧
    gradePlayerGT (some p) (some q) = ⟨pyRoundTo 1 (q - p), "graded"⟩ ∧
    gradePlayerGT none (some q) = ⟨0, "no_baseline"⟩ ∧
    gradePlayerGT (some p) none = ⟨pyRoundTo 1 (-p * (5/10)), "no_post_data"⟩ ∧
    gradePlayerGT none none = ⟨0, "no_data"⟩ ∧
    sideDeltaCW ((none, true, none) :: l) = sideDeltaCW l := by
  refine ⟨rfl, rfl, rfl, rfl, rfl, rfl, rfl, rfl, rfl, ?_⟩
  simp [sideDeltaCW, processPlayerCW]

/-- C2: counterexample. A mixed side with player grade B (GPA 3.0) and one
received pick of GPA 4.0 combines to GPA 0.6 × 3.0 + 0.4 × 4.0 = 3.4, and
`gpa_to_grade` maps 3.4 to letter grade "B" (the "A" cut is 3.5), not "A"
as the claim (spec scenario 5) states. -/
theorem C2_counterexample :
    gradeGpaLookup "B" = some 3 ∧
    (combineSide true true "B" [4]).combined_gpa = some (17/5) ∧
    (combineSide true true "B" [4]).combined_grade = "B" ∧
    "B" ≠ "A" := by
  have h : gradeGpaLookup "B" = some 3 := rfl
  refine ⟨h, ?_, ?_, by decide⟩
  · simp only [combineSide, h]
    norm_num [pyRoundTo]
  · simp only [combineSide, h]
    norm_num [gpa_to_grade]

/-- C2 (amended): for a side with both players and picks, a numeric player
GPA and at least one pick GPA, the combined GPA is
0.6 × player GPA + 0.4 × (average pick GPA), the letter grade is taken
from the `gpa_to_grade` cut points, and the stored GPA is rounded to two
decimals; in particular player-GPA 3.0 with pick-GPA 4.0 gives combined
GPA 3.4 and letter grade B. -/
theorem C2_amended (g : String) (p : ℚ) (qs : List ℚ)
    (hp : gradeGpaLookup g = some p) (hqs : qs.length ≠ 0) :
    combineSide true true g qs =
      ⟨gpa_to_grade (p * (6/10) + (qs.sum / qs.length) * (4/10)),
       some (pyRoundTo 2 (p * (6/10) + (qs.sum / qs.length) * (4/10))),
       "mixed"⟩ := by
  simp only [combineSide, hp]
  simp [hqs]

/-- Witness for C2 (amended) at player grade B and one pick GPA 4.0. -/
theorem C2_witness : (combineSide true true "B" [(4 : ℚ)]).grade_basis = "mixed" := by
  rw [C2_amended "B" 3 [4] rfl (by decide)]

/-- C3: counterexample. With combined GPAs 3.5 and 3.0 the margin is
exactly 0.5, which the claim calls a win for the first side, but the code
requires a strictly larger margin (`a_gpa > b_gpa + 0.5`) and calls the
trade even; and with exactly one INC side the code reports "Partial data",
not "incomplete". -/
theorem C3_counterexample :
    decideTrade (some (7/2)) (some 3) "A" "B" "SideA" "SideB" = .even ∧
    (7/2 : ℚ) ≥ 3 + 5/10 ∧
    decideTrade none (some 3) "INC" "B" "SideA" "SideB" = .partData ∧
    TradeCall.partData ≠ .incomplete := by
  refine ⟨by norm_num [decideTrade], by norm_num, ?_, by decide⟩
  simp [decideTrade]

/-- C3 (amended): when both sides have a numeric combined GPA, a side wins
only with a margin strictly greater than 0.5 and otherwise the trade is
even; when a side lacks a numeric GPA, the trade is reported incomplete
only when both grades are INC, and otherwise as partial data; in both of
those cases there is no winner. -/
theorem C3_amended (a b : ℚ) (ga gb oa ob : String) :
    (a > b + 5/10 → decideTrade (some a) (some b) ga gb oa ob = .winner oa) ∧
    (¬ a > b + 5/10 → b > a + 5/10 →
      decideTrade (some a) (some b) ga gb oa ob = .winner ob) ∧
    (¬ a > b + 5/10 → ¬ b > a + 5/10 →
      decideTrade (some a) (some b) ga gb oa ob = .even) ∧
    (decideTrade none (some b) ga gb oa ob =
      if ga = "INC" ∧ gb = "INC" then .incomplete else .partData) ∧
    (decideTrade (some a) none ga gb oa ob =
      if ga = "INC" ∧ gb = "INC" then .incomplete else .partData) ∧
    (decideTrade none none ga gb oa ob =
      if ga = "INC" ∧ gb = "INC" then .incomplete else .partData) := by
  refine ⟨?_, ?_, ?_, rfl, rfl, rfl⟩
  · intro h1
    simp [decideTrade, h1]
  · intro h1 h2
    simp [decideTrade, h1, h2]
  · intro h1 h2
    simp [decideTrade, h1, h2]

/-- Witness for C3 (amended): a 1.0-GPA margin produces a winner. -/
theorem C3_witness :
    decideTrade (some 4) (some 3) "A" "B" "SideA" "SideB" = .winner "SideA" :=
  (C3_amended 4 3 "A" "B" "SideA" "SideB").1 (by norm_num)

/-- C4: counterexample. `PICK_GRADE_SCALE` is not monotonic across the
round boundary: slot 10 (last of round 1) maps to "F" while slot 11
(first of round 2) maps to the strictly higher "C"; and round-2 grades
are not strictly lower than every round-1 grade: slot 15 (round 2) and
slot 10 (round 1) both map to "F". -/
theorem C4_counterexample :
    (10 : ℤ) < 11 ∧
    pickGradeGet 10 = "F" ∧ pickGradeGet 11 = "C" ∧
    gradeGpa (pickGradeGet 10) < gradeGpa (pickGradeGet 11) ∧
    pickGradeGet 15 = "F" ∧
    ¬ gradeGpa (pickGradeGet 15) < gradeGpa (pickGradeGet 10) := by
  refine ⟨by decide, rfl, rfl, ?_, rfl, ?_⟩
  · exact gradeGpa_strict_of_rank _ _ (by decide)
  · rw [show pickGradeGet 15 = "F" from rfl, show pickGradeGet 10 = "F" from rfl]
    exact lt_irrefl _

/-- C4 (amended): the slot-to-grade mapping is monotonic (non-increasing)
within each round; each round-2 slot's grade never exceeds the grade of
the round-1 slot at the same relative position; and round-2 grades are
capped at "C". Monotonicity across the round boundary fails and the
round-2 cap is not strict (slots 10 and 15 are both "F"). -/
theorem C4_amended :
    (∀ s1 s2 : ℕ, 1 ≤ s1 → s1 < s2 → s2 ≤ 10 →
      gradeGpa (pickGradeGet s2) ≤ gradeGpa (pickGradeGet s1)) ∧
    (∀ s1 s2 : ℕ, 11 ≤ s1 → s1 < s2 → s2 ≤ 20 →
      gradeGpa (pickGradeGet s2) ≤ gradeGpa (pickGradeGet s1)) ∧
    (∀ k : ℕ, 1 ≤ k → k ≤ 10 →
      gradeGpa (pickGradeGet (k + 10)) ≤ gradeGpa (pickGradeGet k)) ∧
    (∀ s : ℕ, 11 ≤ s → s ≤ 20 → gradeGpa (pickGradeGet s) ≤ gradeGpa "C") := by
  have key1 : ∀ s2 : ℕ, s2 ≤ 10 → ∀ s1 : ℕ, s1 < s2 → 1 ≤ s1 →
      gradeRankN (pickGradeGet s2) ≤ gradeRankN (pickGradeGet s1) := by decide
  have key2 : ∀ s2 : ℕ, s2 ≤ 20 → ∀ s1 : ℕ, s1 < s2 → 11 ≤ s1 →
      gradeRankN (pickGradeGet s2) ≤ gradeRankN (pickGradeGet s1) := by decide
  have key3 : ∀ k : ℕ, k ≤ 10 → 1 ≤ k →
      gradeRankN (pickGradeGet (k + 10)) ≤ gradeRankN (pickGradeGet k) := by decide
  have key4 : ∀ s : ℕ, s ≤ 20 → 11 ≤ s →
      gradeRankN (pickGradeGet s) ≤ gradeRankN "C" := by decide
  exact ⟨fun s1 s2 h1 h2 h3 => gradeGpa_mono_of_rank _ _ (key1 s2 h3 s1 h2 h1),
         fun s1 s2 h1 h2 h3 => gradeGpa_mono_of_rank _ _ (key2 s2 h3 s1 h2 h1),
         fun k h1 h2 => gradeGpa_mono_of_rank _ _ (key3 k h2 h1),
         fun s h1 h2 => gradeGpa_mono_of_rank _ _ (key4 s h2 h1)⟩

/-- Witness for C4 (amended): slots 1 < 2 within round 1. -/
theorem C4_witness :
    gradeGpa (pickGradeGet ((2 : ℕ) : ℤ)) ≤ gradeGpa (pickGradeGet ((1 : ℕ) : ℤ)) :=
  C4_amended.1 1 2 (by decide) (by decide) (by decide)

/-- C9 (confirmed): `delta_to_grade` is monotone over its descending
threshold scale, in both compute_trade_windows.py and grade_trades.py:
a smaller delta never receives a higher grade (grades compared by their
`GRADE_VALUES`/GPA order). -/
theorem C9_monotone (d1 d2 : ℚ) (h : d1 < d2) :
    gradeGpa (delta_to_grade_cw d1) ≤ gradeGpa (delta_to_grade_cw d2) ∧
    gradeGpa (delta_to_grade_gt d1) ≤ gradeGpa (delta_to_grade_gt d2) := by
  constructor
  · apply gradeGpa_mono_of_rank
    unfold delta_to_grade_cw
    split_ifs <;> first | decide | linarith
  · apply gradeGpa_mono_of_rank
    unfold delta_to_grade_gt
    split_ifs <;> first | decide | linarith

/-- Witness for C9 at deltas 0 < 1. -/
theorem C9_witness :
    gradeGpa (delta_to_grade_cw 0) ≤ gradeGpa (delta_to_grade_cw 1) :=
  (C9_monotone 0 1 (by norm_num)).1

/-- C10 (confirmed): projecting a future pick whose original owner is not
in the latest standings rank map silently uses rank 5, so the pick is
projected to slot 11 − 5 = 6 and graded from the scale at overall slot
(round − 1) × 10 + 6, rather than being left unprojected or flagged. -/
theorem C10_default_rank (teamToRank : List (String × ℤ)) (p : LedgerEntry)
    (hst : p.status = "pending" ∨ p.status = "no_draft_data")
    (hyr : p.draft_year > 2025)
    (hlk : teamToRank.lookup p.original_owner = none) :
    (projectPick teamToRank p).status = "projected" ∧
    (projectPick teamToRank p).projected_slot = some 6 ∧
    (projectPick teamToRank p).projected_overall = some ((p.round - 1) * 10 + 6) ∧
    (projectPick teamToRank p).projected_grade =
      some (pickGradeGet ((p.round - 1) * 10 + 6)) := by
  have hyr' : ¬ p.draft_year ≤ 2025 := by omega
  rcases hst with h | h <;>
    simp [projectPick, h, hyr', hlk]

/-- Witness for C10: Berke's own pending 2026 round-1 pick with empty
standings projects to slot 6. -/
theorem C10_witness :
    (projectPick [] pendingBerke2026).projected_slot = some 6 :=
  (C10_default_rank [] pendingBerke2026 (Or.inl rfl) (by decide) rfl).2.1

/-- C8: counterexample. A 2026 pick whose draft year has no draft results
does not keep a pending/unresolved status at the end of the run: step 5
projects it (status "projected") and attaches projected grade fields.
Only the non-provisional `pick_grade` stays absent. -/
theorem C8_counterexample :
    (resolveAndProject [] [] p2026).status = "projected" ∧
    "projected" ≠ "pending" ∧
    "projected" ≠ "unresolved" ∧
    "projected" ≠ "no_draft_data" ∧
    (resolveAndProject [] [] p2026).projected_grade = some "B" ∧
    (resolveAndProject [] [] p2026).pick_grade = none := by
  exact ⟨rfl, by decide, by decide, by decide, rfl, rfl⟩

/-- C8 (amended): a pick is "completed" (with a pick grade) exactly when
draft results exist for its year and a slot for its (round, original
owner) is found there. A pick whose year has no draft results never
receives `pick_grade`; if its draft year is at most 2025 it keeps status
"no_draft_data" with untouched projection fields, while a future pick
(year after 2025) is projected: status "projected" with a provisional
`projected_grade`. -/
theorem C8_amended (maps : List (String × List ((ℤ × ℤ) × SlotInfo)))
    (ranks : List (String × ℤ)) (p : LedgerEntry)
    (hg : p.pick_grade = none) :
    ((resolveAndProject maps ranks p).status = "completed" ↔
      ∃ sm, maps.lookup (draft_year_to_season p.draft_year) = some sm ∧
        (sm.find? (fun e => e.1.1 = p.round && e.2.owner = p.original_owner)).isSome) ∧
    (maps.lookup (draft_year_to_season p.draft_year) = none →
      (resolveAndProject maps ranks p).pick_grade = none ∧
      (p.draft_year ≤ 2025 →
        (resolveAndProject maps ranks p).status = "no_draft_data" ∧
        (resolveAndProject maps ranks p).projected_grade = p.projected_grade) ∧
      (2025 < p.draft_year →
        (resolveAndProject maps ranks p).status = "projected" ∧
        (resolveAndProject maps ranks p).projected_grade =
          some (pickGradeGet ((p.round - 1) * 10 +
            (11 - ((ranks.lookup p.original_owner).getD 5)))))) := by
  unfold resolveAndProject mapPickToSlot
  rcases hm : maps.lookup (draft_year_to_season p.draft_year) with _ | sm
  · by_cases hy : 2025 < p.draft_year
    · have hy' : ¬ p.draft_year ≤ 2025 := by omega
      simp only [hm]
      simp [projectPick, hy, hy', hg]
    · have hy' : p.draft_year ≤ 2025 := by omega
      have hy2 : ¬ p.draft_year > 2025 := by omega
      simp only [hm]
      simp [projectPick, hy, hy', hy2, hg]
  · rcases hf : sm.find? (fun e => e.1.1 = p.round && e.2.owner = p.original_owner)
      with _ | e
    · by_cases hy : p.draft_year > 2025
      · have hy' : ¬ p.draft_year ≤ 2025 := by omega
        simp only [hm, hf]
        simp [projectPick, hy, hy', hf]
        intro x y si hmem hx
        have hne := List.find?_eq_none.mp hf _ hmem
        simp [hx] at hne
        exact hne
      · simp only [hm, hf]
        simp [projectPick, hy, hf]
        intro x y si hmem hx
        have hne := List.find?_eq_none.mp hf _ hmem
        simp [hx] at hne
        exact hne
    · simp only [hm, hf]
      simp [projectPick, hf]
      rcases e with ⟨⟨x, y⟩, si⟩
      have hmem := List.mem_of_find?_eq_some hf
      have hpred := List.find?_some hf
      simp at hpred
      exact ⟨x, y, si, hmem, hpred.1, hpred.2⟩

/-- Witness for C8 (amended): the 2026 pick with no draft data. -/
theorem C8_witness :
    (resolveAndProject [] [] p2026).status = "projected" ∧
    (resolveAndProject [] [] p2026).projected_grade =
      some (pickGradeGet ((p2026.round - 1) * 10 +
        (11 - ((([] : List (String × ℤ)).lookup p2026.original_owner).getD 5)))) :=
  ((C8_amended [] [] p2026 rfl).2 rfl).2.2 (by decide)

/-- Membership after a dict assignment: an entry of `setEntry l k e` is an
old entry of `l` or the assigned pair. -/
theorem mem_setEntry {l : List (String × LedgerEntry)} {k k' : String}
    {e e' : LedgerEntry} (h : (k', e') ∈ setEntry l k e) :
    (k', e') ∈ l ∨ (k' = k ∧ e' = e) := by
  unfold setEntry at h
  split at h
  · rcases List.mem_map.1 h with ⟨q, hq, heq⟩
    by_cases hk : q.1 = k
    · rw [if_pos hk] at heq
      right
      exact ⟨(Prod.mk.injEq _ _ _ _ ▸ heq).1.symm ▸ rfl,
             (Prod.mk.injEq _ _ _ _ ▸ heq).2.symm ▸ rfl⟩
    · rw [if_neg hk] at heq
      left
      exact heq ▸ hq
  · rcases List.mem_append.1 h with h1 | h1
    · exact Or.inl h1
    · right
      have := List.mem_singleton.1 h1
      exact ⟨congrArg Prod.fst this, congrArg Prod.snd this⟩

/-- Folding preserves an invariant preserved by each step. -/
theorem foldl_preserve {α β : Type} (f : β → α → β) (P : β → Prop)
    (hf : ∀ b a, P b → P (f b a)) :
    ∀ (l : List α) (b : β), P b → P (l.foldl f b) := by
  intro l
  induction l with
  | nil => intro b hb; exact hb
  | cons a rest ih =>
      intro b hb
      rw [List.foldl_cons]
      exact ih _ (hf b a hb)

/-- Every ledger entry produced by step 2 alone satisfies the
chain-of-custody invariant: each applied pick event ends with
`current_owner` equal to the appended transfer's receiver. -/
theorem buildLedger_chainInvariant (evts : List PickEvent) :
    ∀ k e, (k, e) ∈ buildLedger evts → chainInvariant e := by
  have step : ∀ (l : List (String × LedgerEntry)) (pt : PickEvent),
      (∀ k e, (k, e) ∈ l → chainInvariant e) →
      ∀ k e, (k, e) ∈ applyPickEvent l pt → chainInvariant e := by
    intro l pt H k e hm
    rcases mem_setEntry hm with h | ⟨_, he⟩
    · exact H _ _ h
    · subst he
      unfold chainInvariant
      simp [List.getLast?_concat]
  exact foldl_preserve applyPickEvent _ (fun l pt h => step l pt h) evts []
    (by intro k e h; cases h)

/-- Step 3 never changes entries whose pick id is not among the merged
picks.json ids. -/
theorem mergeFuturePicks_untouched (S : List String) :
    ∀ (fps : List FuturePick) (l : List (String × LedgerEntry)),
      (∀ fp ∈ fps, pickIdOf fp.origOwner fp.year fp.round ∈ S) →
      (∀ k e, (k, e) ∈ l → k ∉ S → chainInvariant e) →
      ∀ k e, (k, e) ∈ mergeFuturePicks l fps → k ∉ S → chainInvariant e := by
  intro fps
  induction fps with
  | nil =>
      intro l _ H k e hm hk
      exact H k e hm hk
  | cons fp rest ih =>
      intro l hS H k e hm hk
      have step : ∀ k e, (k, e) ∈ applyFuturePick l fp → k ∉ S → chainInvariant e := by
        intro k e hmem hnk
        rcases mem_setEntry hmem with h | ⟨hkk, _⟩
        · exact H _ _ h hnk
        · exact absurd (hkk ▸ hS fp (List.mem_cons_self fp rest)) hnk
      exact ih (applyFuturePick l fp)
        (fun fp h => hS fp (List.mem_cons_of_mem _ h)) step k e hm hk

/-- C5: counterexample. picks.json lists HaleTrager's 2026 round-1 pick as
currently held by Berke; no trade event exists for it. Step 3 then creates
a ledger entry with an empty chain whose `current_owner` is Berke, not the
original owner HaleTrager, so at the end of the run `current_owner` is
neither the latest transfer's receiver nor the original owner. -/
theorem C5_counterexample :
    fullLedger [] [fpHale] =
      [(pickIdOf "HaleTrager" 2026 1,
        { original_owner := "HaleTrager", draft_year := 2026, round := 1,
          is_swap := false, trades := [], current_owner := "Berke" })] ∧
    ¬ chainInvariant
        { original_owner := "HaleTrager", draft_year := 2026, round := 1,
          is_swap := false, trades := [], current_owner := "Berke" } := by
  exact ⟨rfl, by decide⟩

/-- C5 (amended): the invariant — `current_owner` equals the `"to"` of the
latest transfer event, or `original_owner` for an empty chain — holds for
every entry of the ledger built from trades (step 2); after the picks.json
merge (step 3) it still holds for every entry whose pick id picks.json
does not touch, while merged ids have `current_owner` overwritten with the
picks.json holder without any transfer event being appended. -/
theorem C5_amended (evts : List PickEvent) (fps : List FuturePick) :
    (∀ k e, (k, e) ∈ buildLedger evts → chainInvariant e) ∧
    (∀ k e, (k, e) ∈ fullLedger evts fps →
      k ∉ fps.map (fun fp => pickIdOf fp.origOwner fp.year fp.round) →
      chainInvariant e) := by
  constructor
  · exact buildLedger_chainInvariant evts
  · exact mergeFuturePicks_untouched _ fps (buildLedger evts)
      (fun fp h => List.mem_map_of_mem _ h)
      (fun k e hm _ => buildLedger_chainInvariant evts k e hm)

/-- Witness for C5 (amended): a single traded pick; its ledger entry ends
owned by the receiver of its only transfer. -/
theorem C5_witness :
    chainInvariant
      { original_owner := "Gold", draft_year := 2026, round := 1,
        is_swap := false,
        trades := [⟨3, "2024-25", "Gold", "Berke"⟩],
        current_owner := "Berke" } :=
  (C5_amended [⟨3, "2024-25", "Gold", "Berke", "Gold", 2026, 1, false⟩] []).1
    (pickIdOf "Gold" 2026 1) _ (by decide)

/-- C6: counterexample. Two backbone trades with identical
(season, owner-pair, give, get) — here two copies of the same record —
both survive reconciliation: the output contains the identical record at
two distinct positions, so their tuples coincide and the later duplicate
is not dropped. -/
theorem C6_counterexample :
    (buildFinalTrades [] [excelDup, excelDup]).length = 2 ∧
    (buildFinalTrades [] [excelDup, excelDup])[0]? = some rawDup ∧
    (buildFinalTrades [] [excelDup, excelDup])[1]? = some rawDup := by
  exact ⟨rfl, rfl, rfl⟩

/-- C6 (amended): the reconciler performs no deduplication. With no bundle
data every backbone trade is out of scope and the output is exactly the
backbone records in stable (season, date) order, one output trade per
backbone trade — duplicates included. -/
theorem C6_amended (excels : List ExcelTrade) :
    buildFinalTrades [] excels = sortTrades (excels.map (·.raw)) := by
  unfold buildFinalTrades
  simp [reconcileMatched, matchedOutputs, excelUnmatched, csvUnmatched]

/-- Soundness and maximality of the candidate scan: starting from a sound
running best, the scan returns an accepted candidate's exact overlap, at
least 1 when a candidate was accepted, and an upper bound for every
candidate in the scanned list. -/
theorem bestScan_spec (et : ExcelTrade) :
    ∀ (l : List (ℕ × CsvTrade)) (best : Option ℕ × ℕ),
      (∀ ci, best.1 = some ci → 1 ≤ best.2) →
      (best.1 = none → best.2 = 0) →
      best.2 ≤ (bestScan et l best).2 ∧
      (∀ ci, (bestScan et l best).1 = some ci →
        1 ≤ (bestScan et l best).2 ∧
        (bestScan et l best = best ∨
          ∃ ct, (ci, ct) ∈ l ∧ isCandidate et ct = true ∧
            overlapCount et ct = (bestScan et l best).2)) ∧
      (∀ cj ct, (cj, ct) ∈ l → isCandidate et ct = true →
        overlapCount et ct ≤ (bestScan et l best).2) ∧
      ((bestScan et l best).1 = none → (bestScan et l best).2 = 0) := by
  intro l
  induction l with
  | nil =>
      intro best h1 h2
      refine ⟨le_refl _, ?_, ?_, h2⟩
      · intro ci h
        exact ⟨h1 ci h, Or.inl rfl⟩
      · intro cj ct h
        cases h
  | cons hd rest ih =>
      intro best h1 h2
      rcases hd with ⟨ci, ct⟩
      by_cases hc : isCandidate et ct = true
      · by_cases hov : overlapCount et ct > best.2
        · -- the head strictly improves the running best
          have hred : bestScan et ((ci, ct) :: rest) best =
              bestScan et rest (some ci, overlapCount et ct) := by
            simp [bestScan, hc, hov]
          have pre1 : ∀ cj, (some ci, overlapCount et ct).1 = some cj →
              1 ≤ (some ci, overlapCount et ct).2 := by
            intro cj _
            omega
          have pre2 : (some ci, overlapCount et ct).1 = none →
              (some ci, overlapCount et ct).2 = 0 := by
            intro h
            cases h
          have IH := ih (some ci, overlapCount et ct) pre1 pre2
          rw [hred]
          refine ⟨by omega, ?_, ?_, IH.2.2.2⟩
          · intro cj hj
            rcases IH.2.1 cj hj with ⟨hge, hcase⟩
            refine ⟨hge, Or.inr ?_⟩
            rcases hcase with heq | ⟨ct', hmem, hcand, hover⟩
            · have hcj : cj = ci := by
                rw [heq] at hj
                exact (Option.some.inj hj).symm
              subst hcj
              refine ⟨ct, List.mem_cons_self _ _, hc, ?_⟩
              rw [heq]
            · exact ⟨ct', List.mem_cons_of_mem _ hmem, hcand, hover⟩
          · intro cj ct' hmem hcand
            rcases List.mem_cons.1 hmem with hh | hh
            · have : ct' = ct := congrArg Prod.snd hh
              rw [this]
              exact le_trans (le_refl _) IH.1
            · exact IH.2.2.1 cj ct' hh hcand
        · -- the head does not improve the running best
          have hred : bestScan et ((ci, ct) :: rest) best = bestScan et rest best := by
            simp [bestScan, hc, hov]
          have IH := ih best h1 h2
          rw [hred]
          refine ⟨IH.1, ?_, ?_, IH.2.2.2⟩
          · intro cj hj
            rcases IH.2.1 cj hj with ⟨hge, hcase⟩
            refine ⟨hge, ?_⟩
            rcases hcase with heq | ⟨ct', hmem, hcand, hover⟩
            · exact Or.inl heq
            · exact Or.inr ⟨ct', List.mem_cons_of_mem _ hmem, hcand, hover⟩
          · intro cj ct' hmem hcand
            rcases List.mem_cons.1 hmem with hh | hh
            · have : ct' = ct := congrArg Prod.snd hh
              rw [this]
              omega
            · exact IH.2.2.1 cj ct' hh hcand
      · -- the head is not a candidate
        have hred : bestScan et ((ci, ct) :: rest) best = bestScan et rest best := by
          simp [bestScan, hc]
        have IH := ih best h1 h2
        rw [hred]
        refine ⟨IH.1, ?_, ?_, IH.2.2.2⟩
        · intro cj hj
          rcases IH.2.1 cj hj with ⟨hge, hcase⟩
          refine ⟨hge, ?_⟩
          rcases hcase with heq | ⟨ct', hmem, hcand, hover⟩
          · exact Or.inl heq
          · exact Or.inr ⟨ct', List.mem_cons_of_mem _ hmem, hcand, hover⟩
        · intro cj ct' hmem hcand
          rcases List.mem_cons.1 hmem with hh | hh
          · have : ct' = ct := congrArg Prod.snd hh
            rw [this] at hcand
            exact absurd hcand hc
          · exact IH.2.2.1 cj ct' hh hcand

/-- C7: counterexample. Backbone trade `etC7` (one player, two picks) has
two candidate groups sharing its season and owner pair. Under the claim's
scoring over ASSETS, `g1C7` scores 2/3 (both picks fuzzy-match) and
`g2C7` scores 1/3, so the claim selects `g1C7` (index 0). The code scores
only PLAYER assets and selects `g2C7` (index 1, overlap 1): the selected
candidate differs from the claim's description. -/
theorem C7_counterexample :
    bestCsvFor [g1C7, g2C7] etC7 = (some 1, 1) ∧
    specCandidateC7 etC7 g1C7 = true ∧
    specCandidateC7 etC7 g2C7 = true ∧
    specScoreC7 etC7 g1C7 = 2/3 ∧
    specScoreC7 etC7 g2C7 = 1/3 ∧
    (1/3 : ℚ) < 2/3 := by
  refine ⟨by decide, by decide, by decide, ?_, ?_, by norm_num⟩
  · unfold specScoreC7
    rw [show (specAssetsExcel etC7).countP
      (fun ep => (specAssetsCsv g1C7).any fun cp => fuzzy_match_name ep cp) = 2
      from by decide]
    rw [show (specAssetsExcel etC7).length = 3 from by decide]
    norm_num
  · unfold specScoreC7
    rw [show (specAssetsExcel etC7).countP
      (fun ep => (specAssetsCsv g2C7).any fun cp => fuzzy_match_name ep cp) = 1
      from by decide]
    rw [show (specAssetsExcel etC7).length = 3 from by decide]
    norm_num

/-- C7 (amended): for a backbone trade, the reconciler considers only
bundle groups with the same season, the same unordered owner pair and at
least one player; it scores each candidate by the count of the backbone
trade's PLAYER assets fuzzy-matching a player of the group (equivalently,
that count relative to the backbone player count, the denominator being
fixed) and selects a maximum-scoring candidate, accepted only with at
least one overlapping player; when no candidate is selected every
candidate has zero overlap. -/
theorem C7_amended (csvs : List CsvTrade) (et : ExcelTrade) :
    (∀ ci ov, bestCsvFor csvs et = (some ci, ov) →
      1 ≤ ov ∧
      (∃ ct, (ci, ct) ∈ csvs.enum ∧ isCandidate et ct = true ∧
        overlapCount et ct = ov) ∧
      (∀ cj ct', (cj, ct') ∈ csvs.enum → isCandidate et ct' = true →
        overlapCount et ct' ≤ ov)) ∧
    (∀ ov, bestCsvFor csvs et = (none, ov) →
      ∀ cj ct', (cj, ct') ∈ csvs.enum → isCandidate et ct' = true →
        overlapCount et ct' = 0) := by
  have H := bestScan_spec et csvs.enum (none, 0)
    (by intro ci h; cases h) (fun _ => rfl)
  constructor
  · intro ci ov h
    have h1 : (bestScan et csvs.enum (none, 0)).1 = some ci := by
      rw [show bestScan et csvs.enum (none, 0) = bestCsvFor csvs et from rfl, h]
    have h2 : (bestScan et csvs.enum (none, 0)).2 = ov := by
      rw [show bestScan et csvs.enum (none, 0) = bestCsvFor csvs et from rfl, h]
    rcases H.2.1 ci h1 with ⟨hge, hcase⟩
    rcases hcase with heq | ⟨ct, hmem, hcand, hover⟩
    · rw [heq] at h1
      cases h1
    · refine ⟨h2 ▸ hge, ⟨ct, hmem, hcand, h2 ▸ hover⟩, ?_⟩
      intro cj ct' hm hc
      exact h2 ▸ H.2.2.1 cj ct' hm hc
  · intro ov h
    have h1 : (bestScan et csvs.enum (none, 0)).1 = none := by
      rw [show bestScan et csvs.enum (none, 0) = bestCsvFor csvs et from rfl, h]
    have h0 := H.2.2.2 h1
    intro cj ct' hm hc
    have := H.2.2.1 cj ct' hm hc
    omega

/-- Witness for C7 (amended): the code's selection on `[g1C7, g2C7]` for
`etC7` (index 1, overlap 1) is a candidate with maximal player overlap. -/
theorem C7_witness :
    1 ≤ 1 ∧
    (∃ ct, ((1 : ℕ), ct) ∈ [g1C7, g2C7].enum ∧ isCandidate etC7 ct = true ∧
      overlapCount etC7 ct = 1) ∧
    (∀ cj ct', (cj, ct') ∈ [g1C7, g2C7].enum → isCandidate etC7 ct' = true →
      overlapCount etC7 ct' ≤ 1) :=
  (C7_amended [g1C7, g2C7] etC7).1 1 1 (by decide)
